import Mathlib

/-!
Verification of the peer-to-peer overlay networking layer of the
0xPolygon/polygon-sdk node (package network): the overlay server with its
dial loop, join watchers, event subscriptions, and the discovery service.
Go source functions are embedded shallowly as Lean functions; external
collaborators (libp2p transport, multiaddr parsing, the kbucket routing
table) are passed in as function parameters.
-/

namespace PolygonNetwork

/-- Peer identities (libp2p peer.ID) are opaque comparable values; we model
them as naturals. -/
abbrev PeerID := Nat

/-- peer.ID.String, kept abstract as the decimal rendering of the model id. -/
def peerIDString (p : PeerID) : String := toString p

/-- Event kinds of the PeerEvent constants in the source
(PeerEventConnected, PeerEventConnectedFailed, PeerEventDisconnected,
PeerEventDialConnectedNode). -/
inductive PeerEventType
  | connected
  | connectedFailed
  | disconnected
  | dialConnectedNode
deriving DecidableEq, Repr

/-- PeerEvent from the source: triggering peer, event type, and a free-text
description. -/
structure PeerEvent where
  peerID : PeerID
  type : PeerEventType
  desc : String
deriving DecidableEq, Repr

/-- peer.AddrInfo: a peer identity together with its known network
addresses (multiaddrs modelled as strings). -/
structure AddrInfo where
  id : PeerID
  addrs : List String
deriving DecidableEq, Repr

/-- AddrInfoToString from the server source: panics with "Not supported"
unless the AddrInfo holds exactly one address, and otherwise renders
addr/p2p/id.  The Go panic is modelled as the error branch of Except. -/
def AddrInfoToString (a : AddrInfo) : Except String String :=
  if a.addrs.length ≠ 1 then Except.error "Not supported"
  else Except.ok (a.addrs.headD "" ++ "/p2p/" ++ peerIDString a.id)

/-- FindPeersReq of the discovery wire protocol: an optional key and a
requested count (a Go integer, hence Int). -/
structure FindPeersReq where
  key : String
  count : Int
deriving DecidableEq, Repr

/-- Count clamping in discovery.FindPeers: counts above 16 are reduced to
the protocol maximum of 16. -/
def clampCount (c : Int) : Int :=
  if c > 16 then 16 else c

/-- Key defaulting in discovery.FindPeers: an empty key is replaced by the
identity of the requesting peer. -/
def defaultKey (fromPeer : PeerID) (k : String) : String :=
  if k = "" then peerIDString fromPeer else k

/-- The filtering loop of discovery.FindPeers: walk the nearest peers,
skip the requester itself, and render every other peer through
AddrInfoToString of its peerstore record; a panic in the conversion aborts
the whole response. -/
def findPeersFilterLoop (pinfo : PeerID → AddrInfo) (fromPeer : PeerID) :
    List PeerID → Except String (List String)
  | [] => Except.ok []
  | p :: rest =>
    if p ≠ fromPeer then
      match AddrInfoToString (pinfo p) with
      | Except.error e => Except.error e
      | Except.ok s => (findPeersFilterLoop pinfo fromPeer rest).map (fun l => s :: l)
    else
      findPeersFilterLoop pinfo fromPeer rest

/-- discovery.FindPeers, the responder side of the discovery protocol.
The routing table is abstracted by the nearest-peers query it offers and
the peerstore by a lookup of AddrInfo records. -/
def FindPeers (nearest : String → Int → List PeerID) (pinfo : PeerID → AddrInfo)
    (fromPeer : PeerID) (req : FindPeersReq) : Except String (List String) :=
  let count := clampCount req.count
  let key := defaultKey fromPeer req.key
  let closer := nearest key count
  findPeersFilterLoop pinfo fromPeer closer

/-- The string AddrInfoToString produces on its non-panicking branch. -/
def addrStringOf (a : AddrInfo) : String :=
  a.addrs.headD "" ++ "/p2p/" ++ peerIDString a.id

theorem addrInfoToString_ok_eq (a : AddrInfo) (s : String)
    (h : AddrInfoToString a = Except.ok s) : s = addrStringOf a := by
  unfold AddrInfoToString at h
  split at h
  · exact absurd h (by simp)
  · simpa [addrStringOf] using h.symm

theorem findPeersFilterLoop_ok (pinfo : PeerID → AddrInfo) (fromPeer : PeerID) :
    ∀ (ids : List PeerID) (l : List String),
      findPeersFilterLoop pinfo fromPeer ids = Except.ok l →
      l = (ids.filter (fun p => p ≠ fromPeer)).map (fun p => addrStringOf (pinfo p)) := by
  intro ids
  induction ids with
  | nil =>
    intro l h
    simpa [findPeersFilterLoop] using h.symm
  | cons p rest ih =>
    intro l h
    by_cases hp : p = fromPeer
    · subst hp
      rw [findPeersFilterLoop, if_neg (by simp)] at h
      have := ih l h
      simpa [List.filter_cons] using this
    · rw [findPeersFilterLoop, if_pos hp] at h
      cases hconv : AddrInfoToString (pinfo p) with
      | error e => rw [hconv] at h; exact absurd h (by simp)
      | ok s =>
        rw [hconv] at h
        cases hrest2 : findPeersFilterLoop pinfo fromPeer rest with
        | error e => rw [hrest2] at h; exact absurd h (by simp [Except.map])
        | ok l0 =>
          rw [hrest2] at h
          have hl : l = s :: l0 := by
            simpa [Except.map] using h.symm
          have := ih l0 hrest2
          subst hl
          simp [List.filter_cons, hp, this, addrInfoToString_ok_eq _ _ hconv]

theorem findPeersFilterLoop_err (pinfo : PeerID → AddrInfo) (fromPeer : PeerID) :
    ∀ (ids : List PeerID) (p : PeerID), p ∈ ids → p ≠ fromPeer →
      (pinfo p).addrs.length ≠ 1 →
      findPeersFilterLoop pinfo fromPeer ids = Except.error "Not supported" := by
  intro ids
  induction ids with
  | nil => intro p hmem; exact absurd hmem (by simp)
  | cons q rest ih =>
    intro p hmem hne hlen
    rcases List.mem_cons.mp hmem with hq | hrest
    · subst hq
      simp only [findPeersFilterLoop, if_pos hne]
      have : AddrInfoToString (pinfo p) = Except.error "Not supported" := by
        unfold AddrInfoToString
        exact if_pos hlen
      rw [this]
    · by_cases hqf : q = fromPeer
      · subst hqf
        rw [findPeersFilterLoop, if_neg (by simp)]
        exact ih p hrest hne hlen
      · rw [findPeersFilterLoop, if_pos hqf]
        cases hconv : AddrInfoToString (pinfo q) with
        | error e =>
          have he : e = "Not supported" := by
            unfold AddrInfoToString at hconv
            split at hconv
            · simpa using hconv.symm
            · exact absurd hconv (by simp)
          rw [he]
        | ok s =>
          rw [ih p hrest hne hlen]
          rfl

/-- C5: discovery.FindPeers clamps the requested count to the protocol
maximum of 16 (the clamp agrees with min count 16), defaults an absent key
to the requesting peer identity, and answers with the routing-table peers
nearest to that key with the requesting peer itself filtered out of the
result. -/
theorem FindPeers_clamps_defaults_excludes_requester
    (nearest : String → Int → List PeerID) (pinfo : PeerID → AddrInfo)
    (fromPeer : PeerID) (req : FindPeersReq) (l : List String)
    (hok : FindPeers nearest pinfo fromPeer req = Except.ok l) :
    clampCount req.count = min req.count 16 ∧
    (req.key = "" → defaultKey fromPeer req.key = peerIDString fromPeer) ∧
    (req.key ≠ "" → defaultKey fromPeer req.key = req.key) ∧
    l = ((nearest (defaultKey fromPeer req.key) (clampCount req.count)).filter
          (fun p => p ≠ fromPeer)).map (fun p => addrStringOf (pinfo p)) ∧
    fromPeer ∉ (nearest (defaultKey fromPeer req.key) (clampCount req.count)).filter
          (fun p => p ≠ fromPeer) := by
  refine ⟨?_, ?_, ?_, ?_, ?_⟩
  · unfold clampCount
    split <;> omega
  · intro hk; simp [defaultKey, hk]
  · intro hk; simp [defaultKey, hk]
  · exact findPeersFilterLoop_ok pinfo fromPeer _ l hok
  · intro hmem
    have := List.of_mem_filter hmem
    simp at this

/-- Witness for C5 at a concrete routing table and peerstore. -/
theorem FindPeers_clamps_defaults_excludes_requester_witness :
    clampCount (20 : Int) = min (20 : Int) 16 ∧
    ((fun (_ : String) (_ : Int) => [2, 1, 3]) "1" (16 : Int)).filter
        (fun p => p ≠ (1 : PeerID)) ≠ [] := by
  constructor
  · exact (FindPeers_clamps_defaults_excludes_requester
      (fun _ _ => [2, 1, 3]) (fun p => ⟨p, ["/ip4/127.0.0.1/tcp/1478"]⟩) 1 ⟨"", 20⟩
      ["/ip4/127.0.0.1/tcp/1478/p2p/2", "/ip4/127.0.0.1/tcp/1478/p2p/3"] (by rfl)).1
  · decide

/-- C10: AddrInfoToString succeeds exactly when the AddrInfo holds exactly
one address (it panics otherwise), and the FindPeers responder, which
converts every nearest non-requester peer through AddrInfoToString of its
peerstore record, panics (errors) as soon as one such peer has an address
count different from one. -/
theorem AddrInfoToString_single_addr_precondition
    (a : AddrInfo)
    (nearest : String → Int → List PeerID) (pinfo : PeerID → AddrInfo)
    (fromPeer : PeerID) (req : FindPeersReq) (p : PeerID)
    (hmem : p ∈ nearest (defaultKey fromPeer req.key) (clampCount req.count))
    (hne : p ≠ fromPeer)
    (hlen : (pinfo p).addrs.length ≠ 1) :
    ((∃ s, AddrInfoToString a = Except.ok s) ↔ a.addrs.length = 1) ∧
    FindPeers nearest pinfo fromPeer req = Except.error "Not supported" := by
  constructor
  · constructor
    · rintro ⟨s, hs⟩
      unfold AddrInfoToString at hs
      split at hs
      · exact absurd hs (by simp)
      · omega
    · intro hone
      refine ⟨addrStringOf a, ?_⟩
      unfold AddrInfoToString
      rw [if_neg (by omega)]
      rfl
  · unfold FindPeers
    exact findPeersFilterLoop_err pinfo fromPeer _ p hmem hne hlen

/-- Witness for C10: a nearest peer with an empty address list makes the
responder panic. -/
theorem AddrInfoToString_single_addr_precondition_witness :
    FindPeers (fun _ _ => [3]) (fun p => ⟨p, []⟩) 1 ⟨"", 5⟩ =
      Except.error "Not supported" :=
  (AddrInfoToString_single_addr_precondition ⟨0, []⟩ (fun _ _ => [3]) (fun p => ⟨p, []⟩)
    1 ⟨"", 5⟩ 3 (by decide) (by decide) (by decide)).2

/-! ## The dial loop of Server.runDial -/

/-- Go conversion int64(u) of a uint64 value, as applied to MaxPeers at the
top of Server.runDial: the value wraps into the signed 64-bit range. -/
def int64OfUInt64 (n : Nat) : Int :=
  ((n % 2 ^ 64 + 2 ^ 63) % 2 ^ 64 : Nat) - (2 ^ 63 : Int)

/-- The slot budget computed at the top of every dial-loop iteration:
int64(MaxPeers) minus the sum of the connected peer count and the pending
connect count, clamped at zero. -/
def dialSlots (maxPeers numPeers numPending : Nat) : Int :=
  let slots : Int := int64OfUInt64 maxPeers - ((numPeers : Int) + (numPending : Int))
  if slots < 0 then 0 else slots

/-- Observable actions of the dial-loop body for a popped task. -/
inductive DialAction
  | emitDialConnectedNode (p : PeerID)
  | connectAttempt (p : PeerID)
deriving DecidableEq, Repr

/-- Where one pass of the dial loop ends up. -/
inductive DialLoopOutcome
  | terminated
  | waitNotify
  | blockedInPop
deriving DecidableEq, Repr

/-- One pass of the inner loop of Server.runDial with a budget of n slots:
pop up to n tasks; a popped task whose peer the transport reports connected
emits a PeerEventDialConnectedNode event and no connect call, any other
popped task gets a transport connect call; after the budget is spent the
loop waits for a notification.  Modelled from the spec where the dial-queue
internals are concerned, since the dialQueue implementation is absent from
the sampled sources: per section 4.4 pop yields the next queued task,
blocks on an empty open queue, and returns a close sentinel on a closed
queue, which makes the dial loop terminate. -/
def runDialPass (connected : PeerID → Bool) :
    Nat → List AddrInfo → Bool → List DialAction × DialLoopOutcome × List AddrInfo
  | 0, queue, _ => ([], DialLoopOutcome.waitNotify, queue)
  | Nat.succ _, [], closed =>
    if closed then ([], DialLoopOutcome.terminated, [])
    else ([], DialLoopOutcome.blockedInPop, [])
  | Nat.succ n, t :: rest, closed =>
    let act := if connected t.id then DialAction.emitDialConnectedNode t.id
               else DialAction.connectAttempt t.id
    let r := runDialPass connected n rest closed
    (act :: r.1, r.2.1, r.2.2)

/-- The filter of the wake-up subscription installed by Server.runDial:
an event is forwarded to the notification channel unless its type differs
from Connected, ConnectedFailed and Disconnected. -/
def dialNotifyFilter (e : PeerEvent) : Bool :=
  decide (e.type = PeerEventType.connected) ||
  decide (e.type = PeerEventType.connectedFailed) ||
  decide (e.type = PeerEventType.disconnected)

theorem runDialPass_actions_eq (conn : PeerID → Bool) (n : Nat) :
    ∀ (q : List AddrInfo) (c : Bool),
      (runDialPass conn n q c).1 =
        (q.take n).map (fun a =>
          if conn a.id then DialAction.emitDialConnectedNode a.id
          else DialAction.connectAttempt a.id) := by
  induction n with
  | zero => intro q c; simp [runDialPass]
  | succ n ih =>
    intro q c
    cases q with
    | nil => cases c <;> simp [runDialPass]
    | cons t rest => simp [runDialPass, ih rest c]

/-- C1: the dial loop computes its budget as MaxPeers minus the connected
plus pending counts, clamped at zero; within the budget every popped task
whose peer is already connected yields exactly an AlreadyConnected-style
event and never a connect call, every other popped task yields a connect
call; at most budget-many tasks are popped per pass; once the budget is
spent the pass blocks waiting for a wake-up, the wake-up subscription
forwarding exactly the Connected, ConnectFailed and Disconnected events;
and a closed empty queue terminates the loop. -/
theorem runDial_budget_events_and_wakeup :
    (∀ maxPeers numPeers numPending : Nat, maxPeers < 2 ^ 63 →
      dialSlots maxPeers numPeers numPending =
        max 0 ((maxPeers : Int) - ((numPeers : Int) + (numPending : Int)))) ∧
    (∀ (conn : PeerID → Bool) (n : Nat) (q : List AddrInfo) (c : Bool),
      (runDialPass conn n q c).1 =
        (q.take n).map (fun a =>
          if conn a.id then DialAction.emitDialConnectedNode a.id
          else DialAction.connectAttempt a.id)) ∧
    (∀ (conn : PeerID → Bool) (n : Nat) (q : List AddrInfo) (c : Bool) (p : PeerID),
      DialAction.connectAttempt p ∈ (runDialPass conn n q c).1 → conn p = false) ∧
    (∀ (conn : PeerID → Bool) (n : Nat) (q : List AddrInfo) (c : Bool) (p : PeerID),
      DialAction.emitDialConnectedNode p ∈ (runDialPass conn n q c).1 → conn p = true) ∧
    (∀ (conn : PeerID → Bool) (n : Nat) (q : List AddrInfo) (c : Bool),
      ((runDialPass conn n q c).1).length ≤ n) ∧
    (∀ (conn : PeerID → Bool) (n : Nat) (q : List AddrInfo) (c : Bool),
      n ≤ q.length → (runDialPass conn n q c).2.1 = DialLoopOutcome.waitNotify) ∧
    (∀ (conn : PeerID → Bool) (n : Nat),
      (runDialPass conn (n + 1) [] true).2.1 = DialLoopOutcome.terminated) ∧
    (∀ e : PeerEvent, dialNotifyFilter e = true ↔
      (e.type = PeerEventType.connected ∨ e.type = PeerEventType.connectedFailed ∨
       e.type = PeerEventType.disconnected)) := by
  have hchar := runDialPass_actions_eq
  refine ⟨?_, fun conn n q c => hchar conn n q c, ?_, ?_, ?_, ?_, ?_, ?_⟩
  · intro maxPeers numPeers numPending h
    have hconv : int64OfUInt64 maxPeers = (maxPeers : Int) := by
      unfold int64OfUInt64
      omega
    unfold dialSlots
    rw [hconv]
    dsimp only
    rw [Int.max_def]
    split <;> split <;> omega
  · intro conn n q c p hmem
    rw [hchar conn n q c] at hmem
    obtain ⟨a, _, hact⟩ := List.mem_map.mp hmem
    by_cases hc : conn a.id = true
    · rw [if_pos hc] at hact
      cases hact
    · rw [if_neg hc] at hact
      injection hact with h
      rw [← h]
      exact Bool.not_eq_true _ |>.mp hc
  · intro conn n q c p hmem
    rw [hchar conn n q c] at hmem
    obtain ⟨a, _, hact⟩ := List.mem_map.mp hmem
    by_cases hc : conn a.id = true
    · rw [if_pos hc] at hact
      injection hact with h
      rw [← h]
      exact hc
    · rw [if_neg hc] at hact
      cases hact
  · intro conn n q c
    rw [hchar conn n q c]
    simp
  · intro conn n
    induction n with
    | zero => intro q c _; simp [runDialPass]
    | succ n ih =>
      intro q c hle
      cases q with
      | nil => simp at hle
      | cons t rest =>
        have := ih rest c (by simpa using hle)
        simpa [runDialPass] using this
  · intro conn n
    simp [runDialPass]
  · intro e
    rcases e with ⟨p, t, d⟩
    cases t <;> simp [dialNotifyFilter]

/-- Witness for C1 at concrete counters and a concrete queue. -/
theorem runDial_budget_events_and_wakeup_witness :
    dialSlots 10 2 1 = max 0 ((10 : Int) - ((2 : Int) + (1 : Int))) ∧
    (runDialPass (fun p => decide (p = 3)) 2
        [⟨3, ["a"]⟩, ⟨4, ["b"]⟩] false).2.1 = DialLoopOutcome.waitNotify :=
  ⟨runDial_budget_events_and_wakeup.1 10 2 1 (by decide),
   runDial_budget_events_and_wakeup.2.2.2.2.2.1 (fun p => decide (p = 3)) 2
     [⟨3, ["a"]⟩, ⟨4, ["b"]⟩] false (by decide)⟩

/-! ## Join, watch and the join watcher of the overlay server -/

/-- A dial task: the address to dial together with the priority it was
queued at (lower values are more urgent). -/
structure DialTask where
  addr : AddrInfo
  priority : Nat
deriving DecidableEq, Repr

/-- Modelled from the spec: the dialQueue implementation (its add method)
is absent from the sampled sources; per section 4.4 of the spec, Add
inserts a task or, when the identity is already queued, lets the lower of
the two priorities win instead of duplicating the task. -/
def dialQueueAdd (q : List DialTask) (a : AddrInfo) (prio : Nat) : List DialTask :=
  if q.any (fun t => t.addr.id == a.id) then
    q.map (fun t => if t.addr.id = a.id then { t with priority := min t.priority prio } else t)
  else q ++ [⟨a, prio⟩]

/-- The join-relevant state of the Server: the dial queue contents and the
joinWatchers table mapping a peer id to its waiting channel (channels are
modelled as numeric tokens). -/
structure JoinState where
  dialQueue : List DialTask
  joinWatchers : List (PeerID × Nat)
deriving DecidableEq, Repr

/-- Lookup in the joinWatchers map. -/
def lookupWatcher (w : List (PeerID × Nat)) (p : PeerID) : Option Nat :=
  (w.find? (fun x => x.1 == p)).map (fun x => x.2)

/-- The map update joinWatchers[peerID] = ch performed by Server.watch. -/
def insertWatcher (w : List (PeerID × Nat)) (p : PeerID) (ch : Nat) :
    List (PeerID × Nat) :=
  w.filter (fun x => x.1 != p) ++ [(p, ch)]

/-- The map deletion delete(joinWatchers, peerID). -/
def deleteWatcher (w : List (PeerID × Nat)) (p : PeerID) : List (PeerID × Nat) :=
  w.filter (fun x => x.1 != p)

/-- What a Join call does control-wise after enqueueing the dial task. -/
inductive JoinReturn
  | immediate
  | blockedOnWatch (p : PeerID)
deriving DecidableEq, Repr

/-- Server.Join: enqueue the address at priority 1 on the dial queue; with
a zero timeout return immediately without waiting, otherwise register a
waiter keyed by the target identity through watch and block on it. -/
def Join (s : JoinState) (a : AddrInfo) (timeout : Nat) (freshCh : Nat) :
    JoinState × JoinReturn :=
  let s1 : JoinState := { s with dialQueue := dialQueueAdd s.dialQueue a 1 }
  if timeout = 0 then (s1, JoinReturn.immediate)
  else ({ s1 with joinWatchers := insertWatcher s1.joinWatchers a.id freshCh },
        JoinReturn.blockedOnWatch a.id)

/-- The timeout branch of Server.watch: the stale waiter is deleted from
the joinWatchers table and a timeout error (a non-nil Go error naming the
host and the peer) is returned to the Join caller. -/
def watchTimeout (w : List (PeerID × Nat)) (hostID p : PeerID) :
    List (PeerID × Nat) × Option String :=
  (deleteWatcher w p,
   some ("timeout " ++ peerIDString hostID ++ " " ++ peerIDString p))

/-- The event filter of Server.runJoinWatcher: only Connected,
ConnectedFailed and DialConnectedNode events are acted upon. -/
def joinWatcherEventRelevant (t : PeerEventType) : Bool :=
  decide (t = PeerEventType.connected) ||
  decide (t = PeerEventType.connectedFailed) ||
  decide (t = PeerEventType.dialConnectedNode)

/-- One iteration of the Server.runJoinWatcher loop on a received event:
for a relevant event whose peer has a registered waiter, the waiter is
removed from the table and receives the value nil on its channel; the
second component records the delivery as the channel token paired with the
delivered Go error value, none standing for nil. -/
def runJoinWatcherStep (w : List (PeerID × Nat)) (e : PeerEvent) :
    List (PeerID × Nat) × Option (Nat × Option String) :=
  if joinWatcherEventRelevant e.type then
    match lookupWatcher w e.peerID with
    | some ch => (deleteWatcher w e.peerID, some (ch, none))
    | none => (w, none)
  else (w, none)

theorem find?_append_left_none {α : Type} (pred : α → Bool) :
    ∀ A B : List α, A.find? pred = none → (A ++ B).find? pred = B.find? pred := by
  intro A B h
  induction A with
  | nil => rfl
  | cons a as ih =>
    cases hp : pred a with
    | false =>
      rw [List.find?_cons_of_neg _ (by simp [hp])] at h
      rw [List.cons_append, List.find?_cons_of_neg _ (by simp [hp])]
      exact ih h
    | true =>
      rw [List.find?_cons_of_pos _ hp] at h
      cases h

theorem find?_filter_ne (p : PeerID) :
    ∀ w : List (PeerID × Nat),
      (w.filter (fun x => x.1 != p)).find? (fun x => x.1 == p) = none := by
  intro w
  induction w with
  | nil => rfl
  | cons y ys ih =>
    rw [List.filter_cons]
    by_cases hy : y.1 = p
    · have hdrop : (y.1 != p) = false := by simp [hy]
      rw [hdrop, if_neg (by simp)]
      exact ih
    · have hkeep : (y.1 != p) = true := by simpa using hy
      rw [hkeep, if_pos rfl, List.find?_cons_of_neg _ (by simpa using hy)]
      exact ih

theorem lookupWatcher_insert (w : List (PeerID × Nat)) (p : PeerID) (ch : Nat) :
    lookupWatcher (insertWatcher w p ch) p = some ch := by
  unfold lookupWatcher insertWatcher
  rw [find?_append_left_none _ _ _ (find?_filter_ne p w)]
  rw [List.find?_cons_of_pos _ (by simp)]
  rfl

theorem lookupWatcher_delete (w : List (PeerID × Nat)) (p : PeerID) :
    lookupWatcher (deleteWatcher w p) p = none := by
  unfold lookupWatcher deleteWatcher
  rw [find?_filter_ne]
  rfl

theorem dialQueueAdd_mem_le (q : List DialTask) (a : AddrInfo) (prio : Nat) :
    ∃ task, task ∈ dialQueueAdd q a prio ∧ task.addr.id = a.id ∧ task.priority ≤ prio := by
  unfold dialQueueAdd
  split
  case isTrue h =>
    obtain ⟨t, ht, hid⟩ := List.any_eq_true.mp h
    have hid2 : t.addr.id = a.id := by simpa using hid
    refine ⟨{ t with priority := min t.priority prio }, ?_, by simpa using hid2,
      min_le_right _ _⟩
    have heq : (fun t => if t.addr.id = a.id then
        { t with priority := min t.priority prio } else t) t
        = { t with priority := min t.priority prio } := by
      dsimp only
      rw [if_pos hid2]
    exact heq ▸ List.mem_map_of_mem _ ht
  case isFalse h =>
    exact ⟨⟨a, prio⟩, by simp, rfl, le_refl _⟩

/-- The resolution part of claim C2 stated the way the spec words it: a
waiter resolved by a ConnectFailed event receives the reported connect
error, a non-nil value. -/
def joinWaiterGetsReportedError : Prop :=
  ∀ (w : List (PeerID × Nat)) (e : PeerEvent) (ch : Nat) (res : Option String),
    e.type = PeerEventType.connectedFailed →
    (runJoinWatcherStep w e).2 = some (ch, res) →
    res ≠ none

/-- C2 counterexample: with a waiter registered for peer 5, a ConnectFailed
event for peer 5 resolves the waiter with nil (success); the reported
connect error is never propagated to the Join caller. -/
theorem join_resolution_counterexample : ¬ joinWaiterGetsReportedError := by
  intro hclaim
  exact hclaim [(5, 0)] ⟨5, PeerEventType.connectedFailed, "connection refused"⟩ 0 none
    rfl rfl rfl

/-- C2 (amended): Join with a positive timeout enqueues a dial task of
priority at most 1 for the target and registers a waiter keyed by the
target identity, while a zero timeout returns immediately after the
enqueue; a delivery of the join watcher happens only for a Connected,
ConnectFailed or DialConnectedNode event whose peer has a registered
waiter, and always carries nil — the reported connect error is not
propagated; an elapsed deadline instead returns a non-nil timeout error,
an outcome distinct from every event resolution. -/
theorem Join_watch_resolution :
    (∀ (s : JoinState) (a : AddrInfo) (t ch : Nat), t ≠ 0 →
      (Join s a t ch).2 = JoinReturn.blockedOnWatch a.id ∧
      lookupWatcher (Join s a t ch).1.joinWatchers a.id = some ch) ∧
    (∀ (s : JoinState) (a : AddrInfo) (ch : Nat),
      (Join s a 0 ch).2 = JoinReturn.immediate ∧
      (Join s a 0 ch).1.joinWatchers = s.joinWatchers) ∧
    (∀ (s : JoinState) (a : AddrInfo) (t ch : Nat),
      ∃ task, task ∈ (Join s a t ch).1.dialQueue ∧
        task.addr.id = a.id ∧ task.priority ≤ 1) ∧
    (∀ (w : List (PeerID × Nat)) (e : PeerEvent) (ch : Nat) (res : Option String),
      (runJoinWatcherStep w e).2 = some (ch, res) →
      (e.type = PeerEventType.connected ∨ e.type = PeerEventType.connectedFailed ∨
        e.type = PeerEventType.dialConnectedNode) ∧
      res = none ∧ lookupWatcher w e.peerID = some ch) ∧
    (∀ (w : List (PeerID × Nat)) (hostID p : PeerID),
      (watchTimeout w hostID p).2 ≠ none) := by
  refine ⟨?_, ?_, ?_, ?_, ?_⟩
  · intro s a t ch ht
    unfold Join
    rw [if_neg ht]
    exact ⟨rfl, lookupWatcher_insert _ _ _⟩
  · intro s a ch
    unfold Join
    exact ⟨rfl, rfl⟩
  · intro s a t ch
    unfold Join
    obtain ⟨task, hmem, hid, hprio⟩ := dialQueueAdd_mem_le s.dialQueue a 1
    by_cases ht : t = 0
    · rw [if_pos ht]
      exact ⟨task, hmem, hid, hprio⟩
    · rw [if_neg ht]
      exact ⟨task, hmem, hid, hprio⟩
  · intro w e ch res h
    rcases e with ⟨pid, ty, d⟩
    unfold runJoinWatcherStep at h
    by_cases hrel : joinWatcherEventRelevant ty = true
    · rw [if_pos hrel] at h
      have hty : ty = PeerEventType.connected ∨ ty = PeerEventType.connectedFailed ∨
          ty = PeerEventType.dialConnectedNode := by
        cases ty <;> simp_all [joinWatcherEventRelevant]
      cases hlk : lookupWatcher w pid with
      | none => rw [hlk] at h; cases h
      | some ch0 =>
        rw [hlk] at h
        have h2 : (ch0, (none : Option String)) = (ch, res) := Option.some.inj h
        have h4 : ch0 = ch := congrArg Prod.fst h2
        have h5 : (none : Option String) = res := congrArg Prod.snd h2
        exact ⟨hty, h5.symm, by rw [h4]⟩
    · rw [if_neg hrel] at h
      cases h
  · intro w hostID p
    simp [watchTimeout]

/-- Witness for C2 (amended) at a concrete join and a concrete event. -/
theorem Join_watch_resolution_witness :
    (Join ⟨[], []⟩ ⟨5, ["addr5"]⟩ 10 0).2 = JoinReturn.blockedOnWatch 5 ∧
    lookupWatcher (Join ⟨[], []⟩ ⟨5, ["addr5"]⟩ 10 0).1.joinWatchers 5 = some 0 :=
  Join_watch_resolution.1 ⟨[], []⟩ ⟨5, ["addr5"]⟩ 10 0 (by decide)

/-- C7: the timeout branch of watch removes the waiter from the
joinWatchers table, and once it ran, a later relevant event for the same
identity finds no waiter: nothing is delivered and the table is left
unchanged, so the timed-out waiter never receives a late event. -/
theorem watch_timeout_removes_and_never_delivers
    (w : List (PeerID × Nat)) (hostID p : PeerID) (e : PeerEvent)
    (hp : e.peerID = p) :
    lookupWatcher (watchTimeout w hostID p).1 p = none ∧
    (runJoinWatcherStep (watchTimeout w hostID p).1 e).2 = none ∧
    (runJoinWatcherStep (watchTimeout w hostID p).1 e).1 = (watchTimeout w hostID p).1 := by
  have hnone : lookupWatcher (watchTimeout w hostID p).1 p = none :=
    lookupWatcher_delete w p
  refine ⟨hnone, ?_, ?_⟩ <;>
  · unfold runJoinWatcherStep
    by_cases hrel : joinWatcherEventRelevant e.type = true
    · rw [if_pos hrel, hp, hnone]
    · rw [if_neg hrel]

/-- Witness for C7 with a populated watcher table. -/
theorem watch_timeout_removes_and_never_delivers_witness :
    lookupWatcher (watchTimeout [(5, 7), (6, 8)] 1 5).1 5 = none ∧
    (runJoinWatcherStep (watchTimeout [(5, 7), (6, 8)] 1 5).1
        ⟨5, PeerEventType.connected, ""⟩).2 = none ∧
    (runJoinWatcherStep (watchTimeout [(5, 7), (6, 8)] 1 5).1
        ⟨5, PeerEventType.connected, ""⟩).1 = (watchTimeout [(5, 7), (6, 8)] 1 5).1 :=
  watch_timeout_removes_and_never_delivers [(5, 7), (6, 8)] 1 5
    ⟨5, PeerEventType.connected, ""⟩ rfl

/-- Server.JoinAddr: two parsing stages (multiaddr.NewMultiaddr and
peer.AddrInfoFromP2pAddr, both external libraries, passed as parameters)
each fail fast by returning the parse error; only a fully parsed address
reaches Join.  The middle component of the result is the error returned to
the caller, the last the Join continuation on success. -/
def JoinAddr (parseMultiaddr : String → Except String Nat)
    (addrInfoFromP2pAddr : Nat → Except String AddrInfo)
    (s : JoinState) (addr : String) (timeout freshCh : Nat) :
    JoinState × Option String × Option JoinReturn :=
  match parseMultiaddr addr with
  | Except.error e => (s, some e, none)
  | Except.ok ma =>
    match addrInfoFromP2pAddr ma with
    | Except.error e => (s, some e, none)
    | Except.ok info =>
      let r := Join s info timeout freshCh
      (r.1, none, some r.2)

/-- C8: a malformed address makes JoinAddr return the parse error at once
with the server state unchanged — no dial task enqueued, no waiter
registered; the same holds when the second parsing stage rejects the
multiaddr. -/
theorem JoinAddr_parse_error_fails_fast
    (pm : String → Except String Nat) (ai : Nat → Except String AddrInfo)
    (s : JoinState) (addr : String) (timeout freshCh : Nat) (e : String) :
    (pm addr = Except.error e →
      JoinAddr pm ai s addr timeout freshCh = (s, some e, none)) ∧
    (∀ ma, pm addr = Except.ok ma → ai ma = Except.error e →
      JoinAddr pm ai s addr timeout freshCh = (s, some e, none)) := by
  constructor
  · intro h
    unfold JoinAddr
    rw [h]
  · intro ma h1 h2
    unfold JoinAddr
    rw [h1]
    dsimp only
    rw [h2]

/-- Witness for C8: a parser rejecting every string leaves a populated
server state untouched and surfaces the error. -/
theorem JoinAddr_parse_error_fails_fast_witness :
    JoinAddr (fun _ => Except.error "failed to parse multiaddr")
      (fun ma => Except.ok ⟨ma, []⟩) ⟨[⟨⟨9, ["x"]⟩, 10⟩], [(9, 3)]⟩ "not-an-addr" 10 0 =
      (⟨[⟨⟨9, ["x"]⟩, 10⟩], [(9, 3)]⟩, some "failed to parse multiaddr", none) :=
  (JoinAddr_parse_error_fails_fast (fun _ => Except.error "failed to parse multiaddr")
    (fun ma => Except.ok ⟨ma, []⟩) ⟨[⟨⟨9, ["x"]⟩, 10⟩], [(9, 3)]⟩ "not-an-addr" 10 0
    "failed to parse multiaddr").1 rfl

/-! ## Discovery service -/

/-- Outcome of one iteration of the discovery.syncConnectedPeers
subscription loop. -/
inductive DiscSyncOutcome
  | updated (rt : List PeerID) (peers : List PeerID)
  | panicked (msg : String)
deriving DecidableEq, Repr

/-- One iteration of discovery.syncConnectedPeers on a received event: the
source comment reads "only for Connected events", yet no check of the
event type is made — the peer of every received event is handed to
routingTable.TryAddPeer (whose failure panics) and appended to the
discovery peer list used for random target selection.  TryAddPeer belongs
to the external kbucket library and is passed as a parameter. -/
def syncConnectedPeersStep
    (tryAdd : List PeerID → PeerID → Except String (List PeerID))
    (rt peers : List PeerID) (e : PeerEvent) : DiscSyncOutcome :=
  match tryAdd rt e.peerID with
  | Except.error msg => DiscSyncOutcome.panicked msg
  | Except.ok rt1 => DiscSyncOutcome.updated rt1 (peers ++ [e.peerID])

/-- C4 at its failing input: a ConnectFailed event for peer 7 is inserted
into the routing table and into the discovery peer list exactly like a
Connected event would be, although no Connected event for 7 was ever
observed, contradicting the only-Connected-events insertion property. -/
theorem syncConnectedPeers_inserts_unconnected_peer :
    syncConnectedPeersStep (fun rt p => Except.ok (rt ++ [p])) [] []
        ⟨7, PeerEventType.connectedFailed, "dial refused"⟩ =
      DiscSyncOutcome.updated [7] [7] ∧
    syncConnectedPeersStep (fun rt p => Except.ok (rt ++ [p])) [] []
        ⟨8, PeerEventType.disconnected, ""⟩ =
      DiscSyncOutcome.updated [8] [8] :=
  ⟨rfl, rfl⟩

/-- State touched by a discovery cycle: the peerstore address records and
the routing table. -/
structure DiscState where
  peerstore : List (PeerID × String)
  rt : List PeerID
deriving DecidableEq, Repr

/-- The node loop of discovery.call: every discovered node gets its first
address written to the peerstore (indexing Addrs[0], itself a panic when
the node carries no address, modelled as an error since the caller panics
on every error of call anyway) and its identity handed to TryAddPeer,
whose failure aborts the loop with the error. -/
def discoveryCallLoop
    (tryAdd : List PeerID → PeerID → Except String (List PeerID)) :
    List AddrInfo → DiscState → Except String DiscState
  | [], st => Except.ok st
  | node :: rest, st =>
    match node.addrs with
    | [] => Except.error "index out of range"
    | a0 :: _ =>
      let st1 : DiscState := { st with peerstore := st.peerstore ++ [(node.id, a0)] }
      match tryAdd st1.rt node.id with
      | Except.error e => Except.error e
      | Except.ok rt1 => discoveryCallLoop tryAdd rest { st1 with rt := rt1 }

/-- discovery.call: a failed remote FindPeers lookup propagates its error,
a successful one runs the node loop over the returned addresses. -/
def discoveryCall
    (tryAdd : List PeerID → PeerID → Except String (List PeerID))
    (st : DiscState) (lookup : Except String (List AddrInfo)) :
    Except String DiscState :=
  match lookup with
  | Except.error e => Except.error e
  | Except.ok nodes => discoveryCallLoop tryAdd nodes st

/-- Outcome of discovery.handleDiscovery. -/
inductive DiscCycleOutcome
  | idleNoPeers
  | completed (st : DiscState)
  | panicked (msg : String)
deriving DecidableEq, Repr

/-- discovery.handleDiscovery: with no known peers nothing happens;
otherwise a random known peer is queried (the random draw below the
peer-list length is a parameter) and every error of discovery.call
panics. -/
def handleDiscovery
    (tryAdd : List PeerID → PeerID → Except String (List PeerID))
    (peers : List PeerID) (randIdx : Nat)
    (lookupOf : PeerID → Except String (List AddrInfo)) (st : DiscState) :
    DiscCycleOutcome :=
  if peers.isEmpty then DiscCycleOutcome.idleNoPeers
  else
    match discoveryCall tryAdd st (lookupOf (peers.getD (randIdx % peers.length) 0)) with
    | Except.error e => DiscCycleOutcome.panicked e
    | Except.ok st1 => DiscCycleOutcome.completed st1

/-- Result of Server.StartStream. -/
inductive StreamResult
  | stream (id : Nat)
  | panicked (msg : String)
deriving DecidableEq, Repr

/-- Server.StartStream: a stream-open failure of the transport panics (the
panic carries the error and is marked TODO in the source) instead of
returning the error to the caller. -/
def StartStream (newStream : Except String Nat) : StreamResult :=
  match newStream with
  | Except.ok s => StreamResult.stream s
  | Except.error e => StreamResult.panicked e

/-- C3 at its failing input: a discovery cycle whose remote lookup to the
only known peer 5 fails with a stream error panics, crashing the process,
instead of logging the failure and ending the cycle; StartStream likewise
panics on a stream-open error. -/
theorem discovery_lookup_failure_panics :
    handleDiscovery (fun rt _ => Except.ok rt) [5] 0
        (fun _ => Except.error "stream reset") ⟨[], []⟩ =
      DiscCycleOutcome.panicked "stream reset" ∧
    StartStream (Except.error "stream reset") =
      StreamResult.panicked "stream reset" :=
  ⟨rfl, rfl⟩

/-! ## Server.Close and the subscription machinery -/

/-- The operations Server.Close can be seen to perform or omit. -/
inductive CloseStep
  | closeHost
  | closeDialQueue
  | closeCloseCh
  | releasePeerTable
deriving DecidableEq, Repr

/-- Server.Close in source order: host.Close, dialQueue.Close, and closing
the closeCh signal channel; nothing else. -/
def serverCloseSteps : List CloseStep :=
  [CloseStep.closeHost, CloseStep.closeDialQueue, CloseStep.closeCloseCh]

/-- Claim C6 as stated: the first action of Close is closing the dial
queue, and releasing the peer table is one of its actions. -/
def closeOrderAsClaimed : Prop :=
  serverCloseSteps.head? = some CloseStep.closeDialQueue ∧
  CloseStep.releasePeerTable ∈ serverCloseSteps

/-- C6 counterexample: Server.Close closes the libp2p host first, not the
dial queue, and no step of it releases the peer table. -/
theorem serverClose_order_counterexample : ¬ closeOrderAsClaimed := by
  unfold closeOrderAsClaimed
  decide

/-- Input a select round of a background subscription loop can wake on. -/
inductive SubLoopInput
  | event (e : PeerEvent)
  | closeSignal
deriving DecidableEq, Repr

/-- What a select round of such a loop does. -/
inductive SubLoopStep
  | handled (e : PeerEvent)
  | closedSubscription
deriving DecidableEq, Repr

/-- One select round of the goroutine of Server.SubscribeFn (the loops of
runJoinWatcher and runDial are shaped the same): an event goes to the
handler and the loop continues; the closeCh signal makes the goroutine
close its subscription and return. -/
def subscribeFnStep : SubLoopInput → SubLoopStep
  | SubLoopInput.event e => SubLoopStep.handled e
  | SubLoopInput.closeSignal => SubLoopStep.closedSubscription

/-- C6 (amended): Server.Close performs exactly host close, dial-queue
close and the closeCh signal, in that order — so the dial queue is closed
before the closeCh signal on which the background subscription loops close
their event-bus subscriptions — and the peer table is never explicitly
released. -/
theorem serverClose_order_amended :
    serverCloseSteps =
      [CloseStep.closeHost, CloseStep.closeDialQueue, CloseStep.closeCloseCh] ∧
    serverCloseSteps.indexOf CloseStep.closeDialQueue <
      serverCloseSteps.indexOf CloseStep.closeCloseCh ∧
    CloseStep.releasePeerTable ∉ serverCloseSteps ∧
    subscribeFnStep SubLoopInput.closeSignal = SubLoopStep.closedSubscription :=
  ⟨rfl, by decide, by decide, rfl⟩

/-- What one round of Subscription.run does with the value received from
the underlying event-bus channel. -/
inductive ForwardStep
  | forwarded (e : PeerEvent)
  | panicked (msg : String)
deriving DecidableEq, Repr

/-- One round of Subscription.run: the value received from sub.Out (none
models the zero value a closed channel yields) is type-asserted to
PeerEvent without a check; on the zero value the assertion panics. -/
def subscriptionRunStep (recv : Option PeerEvent) : ForwardStep :=
  match recv with
  | some e => ForwardStep.forwarded e
  | none =>
    ForwardStep.panicked "interface conversion: interface is nil, not network.PeerEvent"

/-- The channels Subscription.Close could close. -/
inductive SubCloseEffect
  | closeUnderlyingSub
  | closeHandleCh
deriving DecidableEq, Repr

/-- Subscription.Close: closing the underlying event-bus subscription is
its only effect; the handle channel ch stays open (no close of ch appears
anywhere in the source), so a Get blocked on ch can never observe an end
of stream. -/
def subscriptionCloseEffects : List SubCloseEffect :=
  [SubCloseEffect.closeUnderlyingSub]

/-- C9 at its failing input: once the underlying subscription closes, the
forwarding loop panics on the zero value instead of closing the handle
channel, and Subscription.Close never closes the handle channel, so a
blocked Get cannot report end-of-stream. -/
theorem subscription_close_not_propagated :
    subscriptionRunStep none =
      ForwardStep.panicked "interface conversion: interface is nil, not network.PeerEvent" ∧
    SubCloseEffect.closeHandleCh ∉ subscriptionCloseEffects :=
  ⟨rfl, by decide⟩

end PolygonNetwork
